import Mathlib

/-!
Verification of `jupyter_events/logger.py` (the `EventLogger` class).

The development contains two shallow embeddings of the source:

* a value-level model (`JE` namespace): Python dicts become insertion-ordered
  association lists, the external collaborators (`SchemaRegistry`,
  `jsonschema` validation, the `warnings` module and user-supplied modifier
  callables) become explicit parameters, and each public method of
  `EventLogger` becomes a Lean function mirroring the source control flow;

* a heap-level model (`JEHeap` namespace) that makes Python object identity
  and in-place mutation explicit, used to verify the deep-copy isolation of
  `emit` (line 255 of the source: `modified_data = copy.deepcopy(data)`).
-/

namespace JE

/-- A Python value stored in an event payload dict.  The dict-merge logic of
`emit` never inspects the stored values, so values are modelled atomically;
the nested-object structure of payloads matters only for the aliasing
analysis, which lives in the heap model below. -/
inductive JVal where
  | null
  | bool (b : Bool)
  | int (n : Int)
  | str (s : String)
deriving DecidableEq, Repr

/-- A Python dict with string keys: an insertion-ordered association list
with no duplicate keys (duplicate-freedom is an invariant of Python dicts,
assumed as a hypothesis where needed). -/
abbrev Dict := List (String × JVal)

/-- Python `d[k]` as a total lookup: first (unique) matching entry. -/
def dget : Dict → String → Option JVal
  | [], _ => none
  | (k1, v) :: t, k => if k1 = k then some v else dget t k

/-- Python `d[k] = v`: replace in place (keeping the entry's position) when
the key is present, append otherwise. -/
def dset : Dict → String → JVal → Dict
  | [], k, v => [(k, v)]
  | (k1, v1) :: t, k, v => if k1 = k then (k, v) :: t else (k1, v1) :: dset t k v

/-- Python `d.update(e)`: assign every entry of `e` into `d`, in order. -/
def dupdate (d e : Dict) : Dict :=
  e.foldl (fun acc p => dset acc p.1 p.2) d

/-- A key of the `_modifiers` dict.  `register_event_schema`, `add_modifier`
and `emit` use `(schema_id, version)` tuples as keys, while
`remove_modifier` indexes the same dict with the bare `schema_id` string;
the sum type keeps both behaviours expressible, exactly as Python's
heterogeneous dict keys do. -/
inductive PyKey where
  | pair (k : String × Int)
  | strk (s : String)
deriving DecidableEq, Repr

/-- Python dict lookup on the `_modifiers` table (`d[k]`, `none` = KeyError). -/
def klookup {α : Type} : List (PyKey × α) → PyKey → Option α
  | [], _ => none
  | (k1, v) :: t, k => if k1 = k then some v else klookup t k

/-- Python dict assignment on the `_modifiers` table (`d[k] = v`). -/
def ksetK {α : Type} : List (PyKey × α) → PyKey → α → List (PyKey × α)
  | [], k, v => [(k, v)]
  | (k1, v1) :: t, k, v => if k1 = k then (k, v) :: t else (k1, v1) :: ksetK t k v

/-- The shape `inspect.signature` reports for a callable: parameter
(name, annotation) pairs plus the return annotation.  `add_modifier`
compares signatures for equality (source lines 166-174). -/
structure PySig where
  params : List (String × String)
  ret : String
deriving DecidableEq, Repr

/-- The signature enforced by `add_modifier` (source lines 168-170):
`def modifier_signature(schema_id: str, version: int, data: dict) -> dict`. -/
def expectedSignature : PySig :=
  ⟨[("schema_id", "str"), ("version", "int"), ("data", "dict")], "dict"⟩

/-- A Python callable as the modifier table stores it: its inspected
signature plus an object identity (`id()`), which is what makes callables
comparable for set membership and removal. -/
structure PyCallable where
  sig : PySig
  oid : Nat
deriving DecidableEq, Repr

/-- The `EventLogger` state touched by the verified methods:
`handlers` (a traitlets list allowing `None`), the external
`SchemaRegistry` reduced to its membership relation (the only query `emit`
makes of it besides `validate_event`), and the `_modifiers` dict. -/
structure Logger where
  handlers : Option (List Nat)
  schemas : List (String × Int)
  modifiers : List (PyKey × List PyCallable)
deriving DecidableEq, Repr

/-- Python truthiness of `self.handlers` (`if not self.handlers`):
falsy when `None` or the empty list. -/
def handlersTruthy : Option (List Nat) → Bool
  | none => false
  | some l => !l.isEmpty

/-- Source line 22: `EVENTS_METADATA_VERSION = 1`. -/
def EVENTS_METADATA_VERSION : Int := 1

/-- The `SchemaNotRegistered` warning text of source lines 245-251:
`f"({schema_id}, {version}) has not been registered yet. ..."`.
The stdlib `warnings` "once" filter (installed at source line 39)
de-duplicates by this text. -/
def msgOf (schema_id : String) (version : Int) : String :=
  "(" ++ schema_id ++ ", " ++ toString version ++ ") has not " ++
  "been registered yet. If this was not intentional, " ++
  "please register the schema using the " ++
  "`register_event_schema` method."

/-- Python exceptions raised by the modelled methods. -/
inductive PyErr where
  | modifierError
  | keyError
  | validationError
deriving DecidableEq, Repr

/-- Observable side effects of one `emit` call, used to state the
no-sinks short-circuit claim. -/
inductive PyEffect where
  | queryRegistry
  | deepcopyData
  | runModifier (oid : Nat)
  | warnOnce
  | validateEvent
  | dispatch
deriving DecidableEq, Repr

/-- The outcome of one `emit` call: the returned value (or the raised
exception), the trace of observable effects, and the updated state of the
`warnings` module's once-registry. -/
structure EmitOut where
  result : Except PyErr (Option Dict)
  effects : List PyEffect
  warned : List String
deriving Repr

/-- Source lines 269-274: the capsule literal built by `emit`. -/
def capsuleBase (tsIso schema_id : String) (version : Int) : Dict :=
  [("__timestamp__", JVal.str (tsIso ++ "Z")),
   ("__schema__", JVal.str schema_id),
   ("__schema_version__", JVal.int version),
   ("__metadata_version__", JVal.int EVENTS_METADATA_VERSION)]

/-- Source lines 269-275: the capsule literal followed by
`capsule.update(modified_data)`. -/
def mkCapsule (tsIso schema_id : String) (version : Int) (vd : Dict) : Dict :=
  dupdate (capsuleBase tsIso schema_id version) vd

/-- `EventLogger.emit` (source lines 216-277), with the external
collaborators as parameters: `interp` gives the behaviour of each modifier
callable (`modifier(schema_id=..., version=..., data=...)`), `validateEv`
models `self.schemas.validate_event` (it validates and redacts in place;
`none` = raises the jsonschema validation error), `warnedReg` is the
`warnings` once-registry (the set of already-shown message texts), and
`tsIso` is `timestamp.isoformat()` for whichever timestamp (override or
`datetime.utcnow()`) line 265-268 selects. -/
def emit (L : Logger) (interp : Nat → String → Int → Dict → Dict)
    (validateEv : String → Int → Dict → Option Dict)
    (warnedReg : List String) (schema_id : String) (version : Int)
    (data : Dict) (tsIso : String) : EmitOut :=
  -- line 239: `if not self.handlers: return`
  if handlersTruthy L.handlers = false then
    { result := Except.ok none, effects := [], warned := warnedReg }
  -- line 244: `if (schema_id, version) not in self.schemas:`
  else if (schema_id, version) ∉ L.schemas then
    -- lines 245-252: warn (filtered "once" by message text) and return
    if msgOf schema_id version ∈ warnedReg then
      { result := Except.ok none, effects := [PyEffect.queryRegistry],
        warned := warnedReg }
    else
      { result := Except.ok none,
        effects := [PyEffect.queryRegistry, PyEffect.warnOnce],
        warned := msgOf schema_id version :: warnedReg }
  else
    -- line 255: `modified_data = copy.deepcopy(data)`
    -- line 256: `for modifier in self._modifiers[(schema_id, version)]:`
    match klookup L.modifiers (PyKey.pair (schema_id, version)) with
    | none =>
      { result := Except.error PyErr.keyError,
        effects := [PyEffect.queryRegistry, PyEffect.deepcopyData],
        warned := warnedReg }
    | some mods =>
      -- lines 256-259: the modifier chain folds over the (copied) data;
      -- line 262: `self.schemas.validate_event(schema_id, version, modified_data)`
      match validateEv schema_id version
          (mods.foldl (fun d mm => interp mm.oid schema_id version d) data) with
      | none =>
        { result := Except.error PyErr.validationError,
          effects := [PyEffect.queryRegistry, PyEffect.deepcopyData]
            ++ mods.map (fun mm => PyEffect.runModifier mm.oid)
            ++ [PyEffect.validateEvent],
          warned := warnedReg }
      | some vd =>
        -- lines 269-277: build the capsule, merge the payload, dispatch
        { result := Except.ok (some (mkCapsule tsIso schema_id version vd)),
          effects := [PyEffect.queryRegistry, PyEffect.deepcopyData]
            ++ mods.map (fun mm => PyEffect.runModifier mm.oid)
            ++ [PyEffect.validateEvent, PyEffect.dispatch],
          warned := warnedReg }

/-- `EventLogger.register_event_schema` (source lines 108-115).  The
external registry's `register` call is modelled by its observable result:
the registry accepted the document and returned an `EventSchema` whose
`registry_key` is `key`, after which the registry's membership relation
contains `key`.  The core's own action is line 115:
`self._modifiers[key] = set()`. -/
def register_event_schema (L : Logger) (key : String × Int) : Logger :=
  { L with
    schemas := if key ∈ L.schemas then L.schemas else L.schemas ++ [key],
    modifiers := ksetK L.modifiers (PyKey.pair key) [] }

/-- Python `set.add` on a modifier set (sets modelled as duplicate-free
insertion-ordered lists). -/
def setAdd (lst : List PyCallable) (m : PyCallable) : List PyCallable :=
  if m ∈ lst then lst else lst ++ [m]

/-- Source lines 180-182: the broadcast loop of `add_modifier`:
`for (id, version) in self._modifiers: if schema_id is None or id ==
schema_id: self._modifiers[(id, version)].add(modifier)`.  Only
pair-shaped keys ever occur (every key is created by
`register_event_schema`); a string-shaped key would fail the tuple
unpacking, so it is left untouched here. -/
def broadcastAdd (t : List (PyKey × List PyCallable)) (schema_id : Option String)
    (m : PyCallable) : List (PyKey × List PyCallable) :=
  t.map (fun p =>
    match p.1 with
    | PyKey.pair (id, _) =>
      if schema_id = none ∨ schema_id = some id then (p.1, setAdd p.2 m) else p
    | PyKey.strk _ => p)

/-- `EventLogger.add_modifier` (source lines 144-190).  The argument is a
callable (the `not callable` TypeError branch of line 162-163 is outside
the modelled domain).  Signature equality is line 174; the scoped branch
(lines 177-179) uses Python truthiness of `schema_id and version` and
raises KeyError when the `(schema_id, version)` key is absent; otherwise
the broadcast loop runs (lines 180-182); a mismatched signature raises
`ModifierError` (lines 183-190) before any table mutation. -/
def add_modifier (L : Logger) (schema_id : Option String) (version : Option Int)
    (m : PyCallable) : Except PyErr Logger :=
  if m.sig = expectedSignature then
    match schema_id, version with
    | some s, some v =>
      if s ≠ "" ∧ v ≠ 0 then
        match klookup L.modifiers (PyKey.pair (s, v)) with
        | none => Except.error PyErr.keyError
        | some lst =>
          Except.ok { L with
            modifiers := ksetK L.modifiers (PyKey.pair (s, v)) (setAdd lst m) }
      else Except.ok { L with modifiers := broadcastAdd L.modifiers schema_id m }
    | _, _ => Except.ok { L with modifiers := broadcastAdd L.modifiers schema_id m }
  else Except.error PyErr.modifierError

/-- Python `set.remove` semantics on a modifier set: remove the (unique)
occurrence; the caller decides what happens when the element is absent. -/
def removeFirst (m : PyCallable) : List PyCallable → List PyCallable
  | [] => []
  | x :: t => if x = m then t else x :: removeFirst m t

/-- Source lines 208-214: the no-`schema_id` loop of `remove_modifier`:
`for modifier_list in self._modifiers.values(): try:
modifier_list.remove(modifier) except ValueError: pass`.  The values are
`set`s, and `set.remove` raises KeyError (not ValueError) on a missing
element, so the `except ValueError` clause never fires: the loop mutates
the sets it has already visited in place and the KeyError propagates from
the first set not containing the modifier. -/
def removeFromAllGo (m : PyCallable) :
    List (PyKey × List PyCallable) → List (PyKey × List PyCallable) × Option PyErr
  | [] => ([], none)
  | (k, lst) :: rest =>
    if m ∈ lst then
      let p := removeFromAllGo m rest
      ((k, removeFirst m lst) :: p.1, p.2)
    else ((k, lst) :: rest, some PyErr.keyError)

/-- `EventLogger.remove_modifier` (source lines 192-214), returning the
state after the call together with the exception it raises, if any
(in-place mutations performed before a raise persist, as in Python).
With a truthy `schema_id`, line 206 runs `self._modifiers[schema_id]
.remove(modifier)`: a dict lookup keyed by the bare string (the table's
keys are `(id, version)` tuples) followed by `set.remove`. -/
def remove_modifier (L : Logger) (schema_id : Option String) (m : PyCallable) :
    Logger × Option PyErr :=
  match schema_id with
  | some s =>
    if s = "" then
      let p := removeFromAllGo m L.modifiers
      ({ L with modifiers := p.1 }, p.2)
    else
      match klookup L.modifiers (PyKey.strk s) with
      | none => (L, some PyErr.keyError)
      | some lst =>
        if m ∈ lst then
          ({ L with modifiers := ksetK L.modifiers (PyKey.strk s) (removeFirst m lst) },
           none)
        else (L, some PyErr.keyError)
  | none =>
    let p := removeFromAllGo m L.modifiers
    ({ L with modifiers := p.1 }, p.2)

/-- Modifier interpretation used by concrete examples: the identity
modifier behaviour. -/
def idInterp : Nat → String → Int → Dict → Dict := fun _ _ _ d => d

/-- `validate_event` behaviour used by concrete examples: validation
succeeds and redacts nothing. -/
def okValidate : String → Int → Dict → Option Dict := fun _ _ d => some d

/-- `validate_event` behaviour used by concrete examples: validation
always raises. -/
def noValidate : String → Int → Dict → Option Dict := fun _ _ _ => none

/-- A callable with exactly the enforced modifier signature. -/
def mGood : PyCallable := ⟨expectedSignature, 0⟩

/-- A callable whose signature differs from the enforced one. -/
def mBad : PyCallable := ⟨⟨[("x", "str")], "dict"⟩, 1⟩

/-- A second conforming callable, distinct from `mGood`. -/
def mOther : PyCallable := ⟨expectedSignature, 2⟩

/-- One handler, schema `("s", 1)` registered, its modifier set empty. -/
def L1 : Logger := ⟨some [0], [("s", 1)], [(PyKey.pair ("s", 1), [])]⟩

/-- One handler; the externally supplied registry contains `("s", 1)` but
the key never went through `register_event_schema`, so `_modifiers` has no
entry for it. -/
def L2 : Logger := ⟨some [0], [("s", 1)], []⟩

/-- One handler and nothing registered. -/
def L3 : Logger := ⟨some [0], [], []⟩

/-- A logger whose `handlers` list is empty. -/
def L4 : Logger := ⟨some [], [("s", 1)], [(PyKey.pair ("s", 1), [])]⟩

/-- Schema `("s", 1)` registered with one modifier (`mGood`) in its set;
`handlers` is `None`. -/
def L5 : Logger := ⟨none, [("s", 1)], [(PyKey.pair ("s", 1), [mGood])]⟩

/-- One handler, schema `("s", 1)` registered with `mGood` in its set. -/
def L7 : Logger := ⟨some [0], [("s", 1)], [(PyKey.pair ("s", 1), [mGood])]⟩

end JE

namespace JEHeap

/-!
The heap model: Python objects with identity and in-place mutation, used
for the deep-copy isolation property of `emit` (source lines 254-262).
Addresses are `Nat`; a heap maps addresses to objects; dict objects hold
fields pointing at addresses.  `copy.deepcopy` is modelled by a
fuel-bounded recursive copy that allocates fresh addresses.  A modifier
callable, and the in-place `validate_event` call, become heap
transformers; the only assumption made about them is the frame property
every Python callable satisfies: it can read or mutate only objects
reachable from the argument it is handed (and allocate fresh ones). -/

/-- A Python object on the heap. -/
inductive HObj where
  | prim (n : Int)
  | strv (s : String)
  | dict (fields : List (String × Nat))
deriving DecidableEq, Repr

/-- A heap: newest allocation first; lookup takes the first match. -/
abbrev Heap := List (Nat × HObj)

/-- Dereference an address. -/
def lookupH : Heap → Nat → Option HObj
  | [], _ => none
  | (a, o) :: t, b => if a = b then some o else lookupH t b

/-- The largest address occurring as a key. -/
def maxKeyH : Heap → Nat
  | [] => 0
  | (a, _) :: t => max a (maxKeyH t)

/-- A fresh address: strictly above every existing key. -/
def freshA (h : Heap) : Nat := maxKeyH h + 1

mutual

/-- `copy.deepcopy` (used at source line 255), fuel-bounded: copy the
object at `a`, recursively copying dict fields, allocating only fresh
addresses.  `none` means the fuel ran out or the address dangles. -/
def deepcopyF : Nat → Heap → Nat → Option (Heap × Nat)
  | 0, _, _ => none
  | n + 1, h, a =>
    match lookupH h a with
    | none => none
    | some (HObj.prim v) => some ((freshA h, HObj.prim v) :: h, freshA h)
    | some (HObj.strv s) => some ((freshA h, HObj.strv s) :: h, freshA h)
    | some (HObj.dict fs) =>
      match copyFields n h fs with
      | none => none
      | some (h2, fs2) => some ((freshA h2, HObj.dict fs2) :: h2, freshA h2)
termination_by n _ _ => (n, 0)

/-- Copy each field target of a dict in order, threading the heap. -/
def copyFields : Nat → Heap → List (String × Nat) →
    Option (Heap × List (String × Nat))
  | _, h, [] => some (h, [])
  | n, h, (k, b) :: rest =>
    match deepcopyF n h b with
    | none => none
    | some (h2, b2) =>
      match copyFields n h2 rest with
      | none => none
      | some (h3, fs3) => some (h3, (k, b2) :: fs3)
termination_by n _ fs => (n, fs.length + 1)

end

/-- Reachability through the heap's object graph: what a Python callable
holding a reference to `r` can touch. -/
inductive Reaches (h : Heap) : Nat → Nat → Prop
  | refl (a : Nat) : Reaches h a a
  | step {a b c : Nat} {fs : List (String × Nat)} {k : String} :
      lookupH h a = some (HObj.dict fs) → (k, b) ∈ fs →
      Reaches h b c → Reaches h a c

/-- An address set closed under following dict fields in `h`. -/
def ClosedUnder (h : Heap) (S : List Nat) : Prop :=
  ∀ a ∈ S, ∀ fs, lookupH h a = some (HObj.dict fs) → ∀ p ∈ fs, p.2 ∈ S

/-- Executable well-formedness of a heap: every dict field of every stored
object points at a bound address (true of every real Python object graph). -/
def closedB (h : Heap) : Bool :=
  h.all (fun p =>
    match p.2 with
    | HObj.dict fs => fs.all (fun q => (lookupH h q.2).isSome)
    | _ => true)

/-- Existing bindings are untouched: `h1` extends `h`. -/
def HExt (h h1 : Heap) : Prop :=
  ∀ b, (lookupH h b).isSome → lookupH h1 b = lookupH h b

/-- A modifier callable at the heap level: it receives a reference and
returns one, possibly mutating the heap. -/
abbrev ModFun := Heap → Nat → Heap × Nat

/-- `validate_event` at the heap level: it mutates (redacts) in place and
either returns (`true`) or raises (`false`). -/
abbrev ValFun := Heap → Nat → Heap × Bool

/-- Frame property, part 1: a callable leaves every object it cannot reach
from its argument untouched. -/
def Frame1 (f : ModFun) : Prop :=
  ∀ h r a, ¬ Reaches h r a → lookupH (f h r).1 a = lookupH h a

/-- Frame property, part 2: whatever the callable returns reaches only
objects it could already reach from its argument, or objects it freshly
allocated (unbound in the pre-heap). -/
def Frame2 (f : ModFun) : Prop :=
  ∀ h r a, Reaches (f h r).1 (f h r).2 a → Reaches h r a ∨ lookupH h a = none

/-- Frame property for the validator (only part 1 is needed: nothing is
chained after it). -/
def FrameV (f : ValFun) : Prop :=
  ∀ h r a, ¬ Reaches h r a → lookupH (f h r).1 a = lookupH h a

/-- Source lines 256-259: the modifier chain, each modifier fed the
previous one's output. -/
def runMods : List ModFun → Heap → Nat → Heap × Nat
  | [], h, r => (h, r)
  | f :: fs, h, r => runMods fs (f h r).1 (f h r).2

/-- `EventLogger.emit` at the heap level (source lines 216-262): the two
early exits return the heap unchanged; otherwise the payload is
deep-copied, the modifier chain runs on the copy, and `validate_event`
validates/redacts the result in place.  The outer `none` is fuel
exhaustion (a model artifact); the inner `Option Nat` is the root of the
data merged into the capsule (`none` when the call returned nil early or
validation raised). -/
def emitHeap (handlersOk registered : Bool) (mods : List ModFun) (valf : ValFun)
    (fuel : Nat) (h : Heap) (dataAddr : Nat) : Option (Heap × Option Nat) :=
  match handlersOk with
  | false => some (h, none)
  | true =>
    match registered with
    | false => some (h, none)
    | true =>
      match deepcopyF fuel h dataAddr with
      | none => none
      | some (h1, c) =>
        let p := runMods mods h1 c
        let q := valf p.1 p.2
        if q.2 then some (q.1, some p.2) else some (q.1, none)

/-- Specification of a successful `deepcopyF`: the pre-heap's bindings are
untouched, and the copy root lives in a set `S` of addresses that are all
unbound in the pre-heap, bound in the post-heap, and closed under field
dereference (so everything reachable from the copy is disjoint from
everything bound before the copy). -/
def CopySpec (h : Heap) (res : Option (Heap × Nat)) : Prop :=
  ∀ h1 c, res = some (h1, c) →
    HExt h h1 ∧ ∃ S : List Nat, c ∈ S ∧ (∀ b ∈ S, lookupH h b = none) ∧
      (∀ b ∈ S, (lookupH h1 b).isSome) ∧ ClosedUnder h1 S

/-- The analogous specification for `copyFields`: every copied field
target lies in such a set `S`. -/
def FieldsSpec (h : Heap) (res : Option (Heap × List (String × Nat))) : Prop :=
  ∀ h1 fs1, res = some (h1, fs1) →
    HExt h h1 ∧ ∃ S : List Nat, (∀ p ∈ fs1, p.2 ∈ S) ∧
      (∀ b ∈ S, lookupH h b = none) ∧
      (∀ b ∈ S, (lookupH h1 b).isSome) ∧ ClosedUnder h1 S

/-- The identity modifier behaviour, used by the concrete example. -/
def idMod : ModFun := fun h r => (h, r)

/-- A validator that accepts without mutating, used by the example. -/
def okVal : ValFun := fun h _ => (h, true)

/-- Example caller heap: address 0 is the payload dict `{"x": <prim 5>}`,
whose field points at address 1. -/
def exHeap : Heap := [(0, HObj.dict [("x", 1)]), (1, HObj.prim 5)]

/-- The heap after `emitHeap` on `exHeap`: the copy (addresses 2 and 3)
is prepended, the caller's objects untouched. -/
def exHeapFinal : Heap :=
  [(3, HObj.dict [("x", 2)]), (2, HObj.prim 5),
   (0, HObj.dict [("x", 1)]), (1, HObj.prim 5)]

end JEHeap

namespace JE

theorem dget_dset_self (d : Dict) (k : String) (v : JVal) :
    dget (dset d k v) k = some v := by
  induction d with
  | nil => simp [dset, dget]
  | cons p t ih =>
    obtain ⟨k1, v1⟩ := p
    by_cases h : k1 = k
    · subst h; simp [dset, dget]
    · simp [dset, dget, h, ih]

theorem dget_dset_ne (d : Dict) (k : String) (v : JVal) (k2 : String)
    (h : k ≠ k2) : dget (dset d k v) k2 = dget d k2 := by
  induction d with
  | nil => simp [dset, dget, h]
  | cons p t ih =>
    obtain ⟨k1, v1⟩ := p
    by_cases h1 : k1 = k
    · subst h1; simp [dset, dget, h]
    · simp only [dset, if_neg h1]
      by_cases h2 : k1 = k2
      · simp [dget, h2]
      · simp [dget, h2, ih]

theorem forall_ne_of_dget_none (e : Dict) (k : String) (h : dget e k = none) :
    ∀ p ∈ e, p.1 ≠ k := by
  induction e with
  | nil => intro p hp; simp at hp
  | cons q t ih =>
    obtain ⟨k1, v1⟩ := q
    by_cases h1 : k1 = k
    · simp [dget, h1] at h
    · intro p hp
      rcases List.mem_cons.mp hp with rfl | hp2
      · exact h1
      · exact ih (by simpa [dget, h1] using h) p hp2

theorem dupdate_cons (d : Dict) (k1 : String) (v1 : JVal) (t : Dict) :
    dupdate d ((k1, v1) :: t) = dupdate (dset d k1 v1) t := rfl

theorem dget_dupdate_notmem (d e : Dict) (k : String)
    (h : ∀ p ∈ e, p.1 ≠ k) : dget (dupdate d e) k = dget d k := by
  induction e generalizing d with
  | nil => rfl
  | cons q t ih =>
    obtain ⟨k1, v1⟩ := q
    have hk1 : k1 ≠ k := h (k1, v1) (List.mem_cons_self _ _)
    have ht : ∀ p ∈ t, p.1 ≠ k := fun p hp => h p (List.mem_cons_of_mem _ hp)
    rw [dupdate_cons, ih _ ht, dget_dset_ne _ _ _ _ hk1]

theorem dget_dupdate_mem (d e : Dict) (k : String) (v : JVal) :
    (e.map Prod.fst).Nodup → dget e k = some v →
    dget (dupdate d e) k = some v := by
  induction e generalizing d with
  | nil => intro _ h; simp [dget] at h
  | cons q t ih =>
    obtain ⟨k1, v1⟩ := q
    intro hn h
    have hn2 : (t.map Prod.fst).Nodup := (List.nodup_cons.mp (by simpa using hn)).2
    by_cases h1 : k1 = k
    · subst h1
      have hv : v1 = v := by simpa [dget] using h
      subst hv
      have hnot : ∀ p ∈ t, p.1 ≠ k1 := by
        intro p hp heq
        exact (List.nodup_cons.mp (by simpa using hn)).1
          (heq ▸ List.mem_map_of_mem Prod.fst hp)
      rw [dupdate_cons, dget_dupdate_notmem _ _ _ hnot, dget_dset_self]
    · have ht : dget t k = some v := by simpa [dget, h1] using h
      rw [dupdate_cons, ih _ hn2 ht]

theorem dget_dupdate_isSome (d e : Dict) (k : String) :
    dget (dupdate d e) k ≠ none → dget d k ≠ none ∨ dget e k ≠ none := by
  induction e generalizing d with
  | nil => intro h; exact Or.inl h
  | cons q t ih =>
    obtain ⟨k1, v1⟩ := q
    intro h
    rw [dupdate_cons] at h
    rcases ih (dset d k1 v1) h with h2 | h2
    · by_cases h1 : k1 = k
      · subst h1; right; simp [dget]
      · left; rwa [dget_dset_ne _ _ _ _ h1] at h2
    · right
      by_cases h1 : k1 = k
      · simp [dget, h1]
      · simpa [dget, h1] using h2

theorem dget_capsuleBase_none (t s : String) (v : Int) (k : String)
    (h1 : k ≠ "__timestamp__") (h2 : k ≠ "__schema__")
    (h3 : k ≠ "__schema_version__") (h4 : k ≠ "__metadata_version__") :
    dget (capsuleBase t s v) k = none := by
  simp [capsuleBase, dget, Ne.symm h1, Ne.symm h2, Ne.symm h3, Ne.symm h4]

theorem klookup_ksetK_self {α : Type} (t : List (PyKey × α)) (k : PyKey) (v : α) :
    klookup (ksetK t k v) k = some v := by
  induction t with
  | nil => simp [ksetK, klookup]
  | cons p t ih =>
    obtain ⟨k1, v1⟩ := p
    by_cases h : k1 = k
    · subst h; simp [ksetK, klookup]
    · simp [ksetK, klookup, h, ih]

theorem emit_success (L : Logger) (interp : Nat → String → Int → Dict → Dict)
    (validateEv : String → Int → Dict → Option Dict) (W : List String)
    (sid : String) (v : Int) (data : Dict) (ts : String)
    (mods : List PyCallable) (vd : Dict)
    (hh : handlersTruthy L.handlers = true)
    (hs : (sid, v) ∈ L.schemas)
    (hm : klookup L.modifiers (PyKey.pair (sid, v)) = some mods)
    (hv : validateEv sid v (mods.foldl (fun d mm => interp mm.oid sid v d) data)
      = some vd) :
    emit L interp validateEv W sid v data ts
      = { result := Except.ok (some (mkCapsule ts sid v vd)),
          effects := [PyEffect.queryRegistry, PyEffect.deepcopyData]
            ++ mods.map (fun mm => PyEffect.runModifier mm.oid)
            ++ [PyEffect.validateEvent, PyEffect.dispatch],
          warned := W } := by
  simp [emit, hh, hs, hm, hv, mkCapsule, capsuleBase]

theorem emit_warned_mono (L : Logger) (interp : Nat → String → Int → Dict → Dict)
    (validateEv : String → Int → Dict → Option Dict) (W : List String)
    (sid : String) (v : Int) (data : Dict) (ts : String) :
    (emit L interp validateEv W sid v data ts).warned = W
    ∨ (emit L interp validateEv W sid v data ts).warned = msgOf sid v :: W := by
  unfold emit
  split
  · exact Or.inl rfl
  · split
    · split
      · exact Or.inl rfl
      · exact Or.inr rfl
    · split
      · exact Or.inl rfl
      · split
        · exact Or.inl rfl
        · exact Or.inl rfl

theorem emit_no_modifierError (L : Logger) (interp : Nat → String → Int → Dict → Dict)
    (validateEv : String → Int → Dict → Option Dict) (W : List String)
    (sid : String) (v : Int) (data : Dict) (ts : String) :
    (emit L interp validateEv W sid v data ts).result
      ≠ Except.error PyErr.modifierError := by
  unfold emit
  split
  · simp
  · split
    · split <;> simp
    · split
      · simp
      · split <;> simp

/-- Claim C1, counterexample to the claim as stated: the claim quantifies
over every payload that validates, but for a payload that itself defines
the reserved key `__metadata_version__`, the envelope returned by `emit`
carries the payload's value 7, not the constant 1 the claim requires
(`capsule.update(modified_data)` lets the payload overwrite the reserved
entry). -/
theorem C1_envelope_counterexample :
    (emit L1 idInterp okValidate [] "s" 1
        [("__metadata_version__", JVal.int 7)] "T").result
      = Except.ok (some [("__timestamp__", JVal.str "TZ"),
          ("__schema__", JVal.str "s"), ("__schema_version__", JVal.int 1),
          ("__metadata_version__", JVal.int 7)])
    ∧ dget [("__timestamp__", JVal.str "TZ"), ("__schema__", JVal.str "s"),
        ("__schema_version__", JVal.int 1), ("__metadata_version__", JVal.int 7)]
        "__metadata_version__" = some (JVal.int 7)
    ∧ JVal.int 7 ≠ JVal.int EVENTS_METADATA_VERSION :=
  ⟨rfl, rfl, by decide⟩

/-- Claim C1 (amended): for every registered schema key with a modifier
table entry, every emission whose validated (post-modifier,
post-redaction) payload avoids the four reserved keys, and at least one
handler, `emit` returns a non-nil envelope whose `__timestamp__` is a
string ending in the literal "Z", whose `__schema__`, `__schema_version__`
and `__metadata_version__` equal the schema id, the version and the
constant 1, which carries every validated payload field at top level, and
which contains no key beyond the four reserved ones and the payload's. -/
theorem C1_envelope_amended (L : Logger) (interp : Nat → String → Int → Dict → Dict)
    (validateEv : String → Int → Dict → Option Dict) (W : List String)
    (sid : String) (v : Int) (data : Dict) (ts : String)
    (mods : List PyCallable) (vd : Dict)
    (hh : handlersTruthy L.handlers = true)
    (hs : (sid, v) ∈ L.schemas)
    (hm : klookup L.modifiers (PyKey.pair (sid, v)) = some mods)
    (hv : validateEv sid v (mods.foldl (fun d mm => interp mm.oid sid v d) data)
      = some vd)
    (hnodup : (vd.map Prod.fst).Nodup)
    (h1 : dget vd "__timestamp__" = none) (h2 : dget vd "__schema__" = none)
    (h3 : dget vd "__schema_version__" = none)
    (h4 : dget vd "__metadata_version__" = none) :
    (emit L interp validateEv W sid v data ts).result
      = Except.ok (some (mkCapsule ts sid v vd))
    ∧ dget (mkCapsule ts sid v vd) "__timestamp__" = some (JVal.str (ts ++ "Z"))
    ∧ dget (mkCapsule ts sid v vd) "__schema__" = some (JVal.str sid)
    ∧ dget (mkCapsule ts sid v vd) "__schema_version__" = some (JVal.int v)
    ∧ dget (mkCapsule ts sid v vd) "__metadata_version__"
        = some (JVal.int EVENTS_METADATA_VERSION)
    ∧ (∀ k val, dget vd k = some val → dget (mkCapsule ts sid v vd) k = some val)
    ∧ (∀ k, dget (mkCapsule ts sid v vd) k ≠ none →
        k = "__timestamp__" ∨ k = "__schema__" ∨ k = "__schema_version__"
        ∨ k = "__metadata_version__" ∨ dget vd k ≠ none) := by
  refine ⟨?_, ?_, ?_, ?_, ?_, ?_, ?_⟩
  · rw [emit_success L interp validateEv W sid v data ts mods vd hh hs hm hv]
  · rw [mkCapsule, dget_dupdate_notmem _ _ _ (forall_ne_of_dget_none _ _ h1)]; rfl
  · rw [mkCapsule, dget_dupdate_notmem _ _ _ (forall_ne_of_dget_none _ _ h2)]; rfl
  · rw [mkCapsule, dget_dupdate_notmem _ _ _ (forall_ne_of_dget_none _ _ h3)]; rfl
  · rw [mkCapsule, dget_dupdate_notmem _ _ _ (forall_ne_of_dget_none _ _ h4)]; rfl
  · intro k val hkv
    rw [mkCapsule]
    exact dget_dupdate_mem _ _ _ _ hnodup hkv
  · intro k hk
    rw [mkCapsule] at hk
    rcases dget_dupdate_isSome _ _ _ hk with hc | hc
    · by_cases e1 : k = "__timestamp__"
      · exact Or.inl e1
      by_cases e2 : k = "__schema__"
      · exact Or.inr (Or.inl e2)
      by_cases e3 : k = "__schema_version__"
      · exact Or.inr (Or.inr (Or.inl e3))
      by_cases e4 : k = "__metadata_version__"
      · exact Or.inr (Or.inr (Or.inr (Or.inl e4)))
      exact (hc (dget_capsuleBase_none ts sid v k e1 e2 e3 e4)).elim
    · exact Or.inr (Or.inr (Or.inr (Or.inr hc)))

/-- Witness for the amended C1 at a concrete instance: schema `("s", 1)`
registered with an empty modifier set, one handler, payload `{x: 5}`. -/
theorem C1_envelope_witness :
    (emit L1 idInterp okValidate [] "s" 1 [("x", JVal.int 5)] "T").result
      = Except.ok (some (mkCapsule "T" "s" 1 [("x", JVal.int 5)]))
    ∧ dget (mkCapsule "T" "s" 1 [("x", JVal.int 5)]) "__schema__"
        = some (JVal.str "s")
    ∧ dget (mkCapsule "T" "s" 1 [("x", JVal.int 5)]) "x" = some (JVal.int 5) := by
  have h := C1_envelope_amended L1 idInterp okValidate [] "s" 1
    [("x", JVal.int 5)] "T" [] [("x", JVal.int 5)]
    rfl (by decide) rfl rfl (by decide) rfl rfl rfl rfl
  exact ⟨h.1, h.2.2.1, h.2.2.2.2.2.1 "x" (JVal.int 5) rfl⟩

/-- Claim C2, counterexample to the claim as stated: for a validated
payload defining the reserved key `__schema__`, the envelope carries the
payload's value ("evil"), not the envelope's own value (the schema id
"s"); in the `capsule.update(modified_data)` collision the payload wins,
not the envelope. -/
theorem C2_collision_counterexample :
    (emit L1 idInterp okValidate [] "s" 1
        [("__schema__", JVal.str "evil")] "T").result
      = Except.ok (some [("__timestamp__", JVal.str "TZ"),
          ("__schema__", JVal.str "evil"), ("__schema_version__", JVal.int 1),
          ("__metadata_version__", JVal.int 1)])
    ∧ dget [("__timestamp__", JVal.str "TZ"), ("__schema__", JVal.str "evil"),
        ("__schema_version__", JVal.int 1), ("__metadata_version__", JVal.int 1)]
        "__schema__" = some (JVal.str "evil")
    ∧ JVal.str "evil" ≠ JVal.str "s" :=
  ⟨rfl, rfl, by decide⟩

/-- Claim C2 (amended): when the validated payload contains a reserved
envelope key, the envelope returned by `emit` carries the payload's value
for that key (last-write-wins: `dict.update` lets the payload overwrite
the reserved entry). -/
theorem C2_collision_amended (L : Logger) (interp : Nat → String → Int → Dict → Dict)
    (validateEv : String → Int → Dict → Option Dict) (W : List String)
    (sid : String) (v : Int) (data : Dict) (ts : String)
    (mods : List PyCallable) (vd : Dict) (k : String) (val : JVal)
    (hh : handlersTruthy L.handlers = true)
    (hs : (sid, v) ∈ L.schemas)
    (hm : klookup L.modifiers (PyKey.pair (sid, v)) = some mods)
    (hv : validateEv sid v (mods.foldl (fun d mm => interp mm.oid sid v d) data)
      = some vd)
    (hnodup : (vd.map Prod.fst).Nodup)
    (_hres : k = "__timestamp__" ∨ k = "__schema__" ∨ k = "__schema_version__"
      ∨ k = "__metadata_version__")
    (hk : dget vd k = some val) :
    (emit L interp validateEv W sid v data ts).result
      = Except.ok (some (mkCapsule ts sid v vd))
    ∧ dget (mkCapsule ts sid v vd) k = some val := by
  refine ⟨?_, ?_⟩
  · rw [emit_success L interp validateEv W sid v data ts mods vd hh hs hm hv]
  · rw [mkCapsule]
    exact dget_dupdate_mem _ _ _ _ hnodup hk

/-- Witness for the amended C2: payload `{__schema__: "evil"}` emitted
against registered schema `("s", 1)` — the envelope's `__schema__` is the
payload's value. -/
theorem C2_collision_witness :
    (emit L1 idInterp okValidate [] "s" 1
        [("__schema__", JVal.str "evil")] "T").result
      = Except.ok (some (mkCapsule "T" "s" 1 [("__schema__", JVal.str "evil")]))
    ∧ dget (mkCapsule "T" "s" 1 [("__schema__", JVal.str "evil")]) "__schema__"
        = some (JVal.str "evil") := by
  exact C2_collision_amended L1 idInterp okValidate [] "s" 1
    [("__schema__", JVal.str "evil")] "T" [] [("__schema__", JVal.str "evil")]
    "__schema__" (JVal.str "evil")
    rfl (by decide) rfl rfl (by decide) (Or.inr (Or.inl rfl)) rfl

/-- Claim C3 (confirmed): with at least one handler, emitting an
unregistered `(schema_id, version)` returns nil; the first such call for
a key whose warning text is not yet in the once-registry produces exactly
one `SchemaNotRegistered` warning and records the text; any call finding
the text already recorded produces no warning; and every `emit` call
preserves recorded texts, so all subsequent emissions for the same key
stay silent for the process lifetime. -/
theorem C3_unregistered_warn_once (L : Logger)
    (interp : Nat → String → Int → Dict → Dict)
    (validateEv : String → Int → Dict → Option Dict) (W : List String)
    (sid : String) (v : Int) (data : Dict) (ts : String)
    (hh : handlersTruthy L.handlers = true)
    (hs : (sid, v) ∉ L.schemas)
    (hw : msgOf sid v ∉ W) :
    (emit L interp validateEv W sid v data ts).result = Except.ok none
    ∧ (emit L interp validateEv W sid v data ts).effects
        = [PyEffect.queryRegistry, PyEffect.warnOnce]
    ∧ (emit L interp validateEv W sid v data ts).warned = msgOf sid v :: W
    ∧ (∀ (L2 : Logger) interp2 val2 (W2 : List String) (data2 : Dict) (ts2 : String),
        handlersTruthy L2.handlers = true → (sid, v) ∉ L2.schemas →
        msgOf sid v ∈ W2 →
        (emit L2 interp2 val2 W2 sid v data2 ts2).result = Except.ok none
        ∧ (emit L2 interp2 val2 W2 sid v data2 ts2).effects
            = [PyEffect.queryRegistry]
        ∧ (emit L2 interp2 val2 W2 sid v data2 ts2).warned = W2)
    ∧ (∀ (L3 : Logger) interp3 val3 (W3 : List String) (sid3 : String) (v3 : Int)
        (data3 : Dict) (ts3 : String) (msg : String), msg ∈ W3 →
        msg ∈ (emit L3 interp3 val3 W3 sid3 v3 data3 ts3).warned) := by
  refine ⟨?_, ?_, ?_, ?_, ?_⟩
  · simp [emit, hh, hs, hw]
  · simp [emit, hh, hs, hw]
  · simp [emit, hh, hs, hw]
  · intro L2 interp2 val2 W2 data2 ts2 hh2 hs2 hw2
    refine ⟨?_, ?_, ?_⟩ <;> simp [emit, hh2, hs2, hw2]
  · intro L3 interp3 val3 W3 sid3 v3 data3 ts3 msg hmsg
    rcases emit_warned_mono L3 interp3 val3 W3 sid3 v3 data3 ts3 with h | h
    · rw [h]; exact hmsg
    · rw [h]; exact List.mem_cons_of_mem _ hmsg

/-- Witness for C3: nothing registered, first emission of `("s", 1)`
warns once and records the text; a second call with the text recorded
stays silent. -/
theorem C3_unregistered_warn_once_witness :
    (emit L3 idInterp okValidate [] "s" 1 [] "T").result = Except.ok none
    ∧ (emit L3 idInterp okValidate [] "s" 1 [] "T").effects
        = [PyEffect.queryRegistry, PyEffect.warnOnce]
    ∧ (emit L3 idInterp okValidate [] "s" 1 [] "T").warned = [msgOf "s" 1]
    ∧ (emit L3 idInterp okValidate [msgOf "s" 1] "s" 1 [] "T").result
        = Except.ok none
    ∧ (emit L3 idInterp okValidate [msgOf "s" 1] "s" 1 [] "T").effects
        = [PyEffect.queryRegistry] := by
  have h := C3_unregistered_warn_once L3 idInterp okValidate [] "s" 1 [] "T"
    rfl (by decide) (by simp)
  have h2 := h.2.2.2.1 L3 idInterp okValidate [msgOf "s" 1] [] "T"
    rfl (by decide) (List.mem_singleton.mpr rfl)
  exact ⟨h.1, h.2.1, h.2.2.1, h2.1, h2.2.1⟩

/-- Claim C4 (confirmed): with `handlers` equal to `None` or the empty
list, `emit` returns nil immediately, with an empty effect trace (no
registry query, no deep copy, no modifier run, no warning) and the
warning registry unchanged, for every schema key and payload. -/
theorem C4_no_handlers_short_circuit (L : Logger)
    (interp : Nat → String → Int → Dict → Dict)
    (validateEv : String → Int → Dict → Option Dict) (W : List String)
    (sid : String) (v : Int) (data : Dict) (ts : String)
    (hh : L.handlers = none ∨ L.handlers = some []) :
    emit L interp validateEv W sid v data ts
      = { result := Except.ok none, effects := [], warned := W } := by
  have hb : handlersTruthy L.handlers = false := by
    rcases hh with h | h <;> simp [h, handlersTruthy]
  simp [emit, hb]

/-- Witness for C4 at both concrete no-sink states: `handlers = []` and
`handlers = None`. -/
theorem C4_no_handlers_short_circuit_witness :
    emit L4 idInterp okValidate [] "s" 1 [("x", JVal.int 5)] "T"
      = { result := Except.ok none, effects := [], warned := [] }
    ∧ emit L5 idInterp okValidate [] "s" 1 [("x", JVal.int 5)] "T"
      = { result := Except.ok none, effects := [], warned := [] } :=
  ⟨C4_no_handlers_short_circuit L4 idInterp okValidate [] "s" 1
      [("x", JVal.int 5)] "T" (Or.inr rfl),
   C4_no_handlers_short_circuit L5 idInterp okValidate [] "s" 1
      [("x", JVal.int 5)] "T" (Or.inl rfl)⟩

/-- Claim C5, counterexample to the claim as stated: schema `("s", 1)` is
registered with `mGood` in its modifier set; re-registering the same key
(the registry accepting it) leaves the key's modifier set empty —
`self._modifiers[key] = set()` clears the previously registered
modifiers. -/
theorem C5_reregister_counterexample :
    klookup L5.modifiers (PyKey.pair ("s", 1)) = some [mGood]
    ∧ klookup (register_event_schema L5 ("s", 1)).modifiers (PyKey.pair ("s", 1))
        = some []
    ∧ ([] : List PyCallable) ≠ [mGood] :=
  ⟨rfl, rfl, by decide⟩

/-- Claim C5 (amended): whenever the registry collaborator accepts a
(re-)registration of a key, `register_event_schema` resets that key's
modifier set to the empty set — previously registered modifiers for the
key are discarded, not preserved. -/
theorem C5_reregister_amended (L : Logger) (key : String × Int) :
    klookup (register_event_schema L key).modifiers (PyKey.pair key) = some [] :=
  klookup_ksetK_self L.modifiers (PyKey.pair key) []

/-- Claim C6, counterexample to the claim as stated: `mGood` has exactly
the required signature, yet `add_modifier` scoped to the never-registered
key `("s", 1)` does not succeed — it raises KeyError (and not the
modifier-contract error). -/
theorem C6_contract_counterexample :
    mGood.sig = expectedSignature
    ∧ add_modifier L3 (some "s") (some 1) mGood = Except.error PyErr.keyError
    ∧ PyErr.keyError ≠ PyErr.modifierError :=
  ⟨rfl, rfl, by decide⟩

/-- Claim C6 (amended): `add_modifier` validates the callable's shape at
registration time: a mismatched signature raises the modifier-contract
error before any table mutation; an exact-signature callable succeeds
when scoped to a registered `(schema_id, version)` key (adding it to that
key's set) and always succeeds in the broadcast forms; scoping an
exact-signature callable to an unregistered key raises KeyError, not the
contract error; and `emit` never raises the contract error. -/
theorem C6_contract_amended :
    (∀ (L : Logger) (sid : Option String) (ver : Option Int) (m : PyCallable),
      m.sig ≠ expectedSignature →
      add_modifier L sid ver m = Except.error PyErr.modifierError)
    ∧ (∀ (L : Logger) (s : String) (v : Int) (m : PyCallable)
        (lst : List PyCallable),
      m.sig = expectedSignature → s ≠ "" → v ≠ 0 →
      klookup L.modifiers (PyKey.pair (s, v)) = some lst →
      add_modifier L (some s) (some v) m = Except.ok { L with
        modifiers := ksetK L.modifiers (PyKey.pair (s, v)) (setAdd lst m) })
    ∧ (∀ (L : Logger) (sid : Option String) (ver : Option Int) (m : PyCallable),
      m.sig = expectedSignature →
      (sid = none ∨ ver = none ∨ sid = some "" ∨ ver = some 0) →
      add_modifier L sid ver m
        = Except.ok { L with modifiers := broadcastAdd L.modifiers sid m })
    ∧ (∀ (L : Logger) interp validateEv (W : List String) (sid : String) (v : Int)
        (data : Dict) (ts : String),
      (emit L interp validateEv W sid v data ts).result
        ≠ Except.error PyErr.modifierError) := by
  refine ⟨?_, ?_, ?_, ?_⟩
  · intro L sid ver m hsig
    simp [add_modifier, hsig]
  · intro L s v m lst hsig hs hv hk
    simp [add_modifier, hsig, hs, hv, hk]
  · intro L sid ver m hsig hcase
    cases sid with
    | none =>
      cases ver with
      | none => simp [add_modifier, hsig]
      | some v2 => simp [add_modifier, hsig]
    | some s2 =>
      cases ver with
      | none => simp [add_modifier, hsig]
      | some v2 =>
        rcases hcase with h | h | h | h
        · exact absurd h (by simp)
        · exact absurd h (by simp)
        · have : s2 = "" := Option.some.inj h
          subst this
          simp [add_modifier, hsig]
        · have : v2 = 0 := Option.some.inj h
          subst this
          simp [add_modifier, hsig]
  · intro L interp validateEv W sid v data ts
    exact emit_no_modifierError L interp validateEv W sid v data ts

/-- Witness for the amended C6: adding the conforming `mGood` to the
registered key `("s", 1)` succeeds; adding the non-conforming `mBad`
raises the contract error; a concrete `emit` does not raise the contract
error. -/
theorem C6_contract_witness :
    add_modifier L1 (some "s") (some 1) mGood = Except.ok { L1 with
      modifiers := ksetK L1.modifiers (PyKey.pair ("s", 1)) (setAdd [] mGood) }
    ∧ add_modifier L1 (some "s") (some 1) mBad = Except.error PyErr.modifierError
    ∧ (emit L3 idInterp okValidate [] "s" 1 [] "T").result
        ≠ Except.error PyErr.modifierError :=
  ⟨C6_contract_amended.2.1 L1 "s" 1 mGood [] rfl (by decide) (by decide) rfl,
   C6_contract_amended.1 L1 (some "s") (some 1) mBad (by decide),
   C6_contract_amended.2.2.2 L3 idInterp okValidate [] "s" 1 [] "T"⟩

/-- Claim C7 is right about the intent and the code is wrong: evaluating
the code at the failing input — schema `("s", 1)` registered via
`register_event_schema` with modifier `mGood` in its set — shows
`remove_modifier(schema_id="s", modifier=mGood)` raises KeyError and
removes nothing, because line 206 indexes `_modifiers` (keyed by
`(id, version)` tuples) with the bare string `"s"`. -/
theorem C7_remove_scoped_failing_input :
    klookup L7.modifiers (PyKey.pair ("s", 1)) = some [mGood]
    ∧ remove_modifier L7 (some "s") mGood = (L7, some PyErr.keyError) :=
  ⟨rfl, rfl⟩

/-- Claim C8 is right about the intent and the code is wrong: evaluating
the code at the failing input — registered key `("s", 1)` whose modifier
set does not contain `mGood` — shows `remove_modifier` without a
`schema_id` raises KeyError instead of tolerating the absence silently:
the loop catches ValueError, but `set.remove` raises KeyError. -/
theorem C8_remove_all_failing_input :
    remove_modifier L1 none mGood = (L1, some PyErr.keyError) := rfl

/-- Claim C10, counterexample to the claim as stated: with the schema
registry supplied externally so that it contains `("s", 1)` while
`_modifiers` has no entry for it, `emit` raises KeyError at the
modifier-table lookup (line 256) — a raising step other than
validation. -/
theorem C10_only_validation_counterexample :
    (emit L2 idInterp okValidate [] "s" 1 [] "T").result
      = Except.error PyErr.keyError
    ∧ PyErr.keyError ≠ PyErr.validationError :=
  ⟨rfl, by decide⟩

/-- Claim C10 (amended): provided every key the registry knows has a
modifier-table entry (which holds whenever all schemas went through
`register_event_schema`), validation is the only step of `emit` that can
raise: every raised error is the validation error. -/
theorem C10_only_validation_amended (L : Logger)
    (interp : Nat → String → Int → Dict → Dict)
    (validateEv : String → Int → Dict → Option Dict) (W : List String)
    (sid : String) (v : Int) (data : Dict) (ts : String)
    (hcov : ∀ p ∈ L.schemas, (klookup L.modifiers (PyKey.pair p)).isSome) :
    ∀ e, (emit L interp validateEv W sid v data ts).result = Except.error e →
      e = PyErr.validationError := by
  intro e he
  by_cases hA : handlersTruthy L.handlers = false
  · simp [emit, hA] at he
  · by_cases hB : (sid, v) ∈ L.schemas
    · cases hK : klookup L.modifiers (PyKey.pair (sid, v)) with
      | none => exact absurd (hcov (sid, v) hB) (by simp [hK])
      | some mods =>
        cases hV : validateEv sid v
            (mods.foldl (fun d mm => interp mm.oid sid v d) data) with
        | none =>
          simp [emit, hA, hB, hK, hV] at he
          exact he.symm
        | some vd => simp [emit, hA, hB, hK, hV] at he
    · by_cases hw : msgOf sid v ∈ W
      · simp [emit, hA, hB, hw] at he
      · simp [emit, hA, hB, hw] at he

/-- Witness for the amended C10: a concrete emission whose validation
fails raises exactly the validation error. -/
theorem C10_only_validation_witness :
    (emit L1 idInterp noValidate [] "s" 1 [] "T").result
      = Except.error PyErr.validationError
    ∧ PyErr.validationError = PyErr.validationError :=
  ⟨rfl, C10_only_validation_amended L1 idInterp noValidate [] "s" 1 [] "T"
    (by decide) PyErr.validationError rfl⟩

end JE

namespace JEHeap

theorem lookupH_isSome_le (h : Heap) (b : Nat) (hb : (lookupH h b).isSome) :
    b ≤ maxKeyH h := by
  induction h with
  | nil => simp [lookupH] at hb
  | cons p t ih =>
    obtain ⟨a, o⟩ := p
    by_cases hab : a = b
    · subst hab; exact le_max_left _ _
    · exact le_trans (ih (by simpa [lookupH, hab] using hb))
        (le_max_right a (maxKeyH t))

theorem lookupH_fresh_ne (h : Heap) (b : Nat) (hb : (lookupH h b).isSome) :
    freshA h ≠ b := by
  intro e
  have := lookupH_isSome_le h b hb
  rw [← e] at this
  unfold freshA at this
  omega

theorem lookupH_freshA (h : Heap) : lookupH h (freshA h) = none := by
  cases hc : lookupH h (freshA h) with
  | none => rfl
  | some o =>
    exfalso
    have := lookupH_isSome_le h (freshA h) (by simp [hc])
    unfold freshA at this
    omega

theorem lookupH_alloc (h : Heap) (o : HObj) (b : Nat)
    (hb : (lookupH h b).isSome) :
    lookupH ((freshA h, o) :: h) b = lookupH h b := by
  simp [lookupH, lookupH_fresh_ne h b hb]

theorem HExt_refl (h : Heap) : HExt h h := fun _ _ => rfl

theorem HExt_trans {h1 h2 h3 : Heap} (a : HExt h1 h2) (b : HExt h2 h3) :
    HExt h1 h3 := by
  intro x hx
  have e := a x hx
  have hx2 : (lookupH h2 x).isSome := by rw [e]; exact hx
  rw [b x hx2, e]

theorem HExt_alloc (h : Heap) (o : HObj) : HExt h ((freshA h, o) :: h) :=
  fun b hb => lookupH_alloc h o b hb

theorem reach_in_S {h : Heap} {S : List Nat} (hc : ClosedUnder h S) :
    ∀ {a b : Nat}, Reaches h a b → a ∈ S → b ∈ S := by
  intro a b hr
  induction hr with
  | refl => exact fun ha => ha
  | step hl hm _ ih => exact fun ha => ih (hc _ ha _ hl _ hm)

theorem lookupH_mem {h : Heap} {a : Nat} {o : HObj}
    (hl : lookupH h a = some o) : (a, o) ∈ h := by
  induction h with
  | nil => simp [lookupH] at hl
  | cons p t ih =>
    obtain ⟨a1, o1⟩ := p
    by_cases he : a1 = a
    · subst he
      have : o1 = o := by simpa [lookupH] using hl
      subst this
      exact List.mem_cons_self _ _
    · exact List.mem_cons_of_mem _ (ih (by simpa [lookupH, he] using hl))

theorem closedB_spec {h : Heap} (hc : closedB h = true) {a : Nat}
    {fs : List (String × Nat)} (hl : lookupH h a = some (HObj.dict fs)) :
    ∀ p ∈ fs, (lookupH h p.2).isSome := by
  intro p hp
  have h1 := List.all_eq_true.mp hc (a, HObj.dict fs) (lookupH_mem hl)
  simp only [List.all_eq_true] at h1
  simpa using h1 p hp

theorem closed_reach_isSome {h : Heap} (hc : closedB h = true) :
    ∀ {r a : Nat}, Reaches h r a → (lookupH h r).isSome →
      (lookupH h a).isSome := by
  intro r a hra
  induction hra with
  | refl => exact fun hr => hr
  | step hl hm _ ih => exact fun _ => ih (closedB_spec hc hl _ hm)

theorem copyFields_spec (n : Nat)
    (IH : ∀ (h : Heap) (a : Nat), CopySpec h (deepcopyF n h a)) :
    ∀ (fs : List (String × Nat)) (h : Heap), FieldsSpec h (copyFields n h fs) := by
  intro fs
  induction fs with
  | nil =>
    intro h h1 fs1 he
    have he2 : h = h1 ∧ [] = fs1 := by simpa [copyFields] using he
    obtain ⟨rfl, rfl⟩ := he2
    refine ⟨HExt_refl h, [], ?_, ?_, ?_, ?_⟩
    · intro p hp; simp at hp
    · intro b hb; simp at hb
    · intro b hb; simp at hb
    · intro b hb; simp at hb
  | cons q rest ih =>
    obtain ⟨k, b⟩ := q
    intro h h1 fs1 he
    cases hd : deepcopyF n h b with
    | none => simp [copyFields, hd] at he
    | some p2 =>
      obtain ⟨h2, b2⟩ := p2
      cases hcf : copyFields n h2 rest with
      | none => simp [copyFields, hd, hcf] at he
      | some p3 =>
        obtain ⟨h3, fs3⟩ := p3
        have he2 : h3 = h1 ∧ (k, b2) :: fs3 = fs1 := by
          simpa [copyFields, hd, hcf] using he
        obtain ⟨rfl, rfl⟩ := he2
        obtain ⟨hext1, S1, hb2S, hS1fresh, hS1some, hS1closed⟩ :=
          IH h b h2 b2 hd
        obtain ⟨hext2, S2, hfs3S, hS2fresh, hS2some, hS2closed⟩ :=
          ih h2 h3 fs3 hcf
        refine ⟨HExt_trans hext1 hext2, S1 ++ S2, ?_, ?_, ?_, ?_⟩
        · intro p hp
          rcases List.mem_cons.mp hp with rfl | hp2
          · exact List.mem_append_left _ hb2S
          · exact List.mem_append_right _ (hfs3S p hp2)
        · intro x hx
          rcases List.mem_append.mp hx with hx1 | hx2
          · exact hS1fresh x hx1
          · cases hcase : lookupH h x with
            | none => rfl
            | some o =>
              exfalso
              have hsx := hext1 x (by simp [hcase])
              rw [hS2fresh x hx2, hcase] at hsx
              cases hsx
        · intro x hx
          rcases List.mem_append.mp hx with hx1 | hx2
          · have h2some := hS1some x hx1
            rw [hext2 x h2some]; exact h2some
          · exact hS2some x hx2
        · intro x hx fs0 hl p hp
          rcases List.mem_append.mp hx with hx1 | hx2
          · have h2some := hS1some x hx1
            rw [hext2 x h2some] at hl
            exact List.mem_append_left _ (hS1closed x hx1 fs0 hl p hp)
          · exact List.mem_append_right _ (hS2closed x hx2 fs0 hl p hp)

theorem deepcopyF_spec : ∀ (n : Nat) (h : Heap) (a : Nat),
    CopySpec h (deepcopyF n h a) := by
  intro n
  induction n with
  | zero => intro h a h1 c he; simp [deepcopyF] at he
  | succ n ih =>
    intro h a h1 c he
    cases hl : lookupH h a with
    | none => simp [deepcopyF, hl] at he
    | some o =>
      cases o with
      | prim v =>
        have he2 : (freshA h, HObj.prim v) :: h = h1 ∧ freshA h = c := by
          simpa [deepcopyF, hl] using he
        obtain ⟨rfl, rfl⟩ := he2
        refine ⟨HExt_alloc h _, [freshA h], List.mem_singleton.mpr rfl, ?_, ?_, ?_⟩
        · intro x hx
          rw [List.mem_singleton.mp hx]
          exact lookupH_freshA h
        · intro x hx
          rw [List.mem_singleton.mp hx]
          simp [lookupH]
        · intro x hx fs0 hl0 p hp
          rw [List.mem_singleton.mp hx] at hl0
          simp [lookupH] at hl0
      | strv s =>
        have he2 : (freshA h, HObj.strv s) :: h = h1 ∧ freshA h = c := by
          simpa [deepcopyF, hl] using he
        obtain ⟨rfl, rfl⟩ := he2
        refine ⟨HExt_alloc h _, [freshA h], List.mem_singleton.mpr rfl, ?_, ?_, ?_⟩
        · intro x hx
          rw [List.mem_singleton.mp hx]
          exact lookupH_freshA h
        · intro x hx
          rw [List.mem_singleton.mp hx]
          simp [lookupH]
        · intro x hx fs0 hl0 p hp
          rw [List.mem_singleton.mp hx] at hl0
          simp [lookupH] at hl0
      | dict fs =>
        cases hcf : copyFields n h fs with
        | none => simp [deepcopyF, hl, hcf] at he
        | some p2 =>
          obtain ⟨h2, fs2⟩ := p2
          have he2 : (freshA h2, HObj.dict fs2) :: h2 = h1 ∧ freshA h2 = c := by
            simpa [deepcopyF, hl, hcf] using he
          obtain ⟨rfl, rfl⟩ := he2
          obtain ⟨hext, S2, hfs2, hfresh, hsome, hclosed⟩ :=
            copyFields_spec n ih fs h h2 fs2 hcf
          have hfrfresh : lookupH h (freshA h2) = none := by
            by_contra hne
            have hs : (lookupH h (freshA h2)).isSome :=
              Option.ne_none_iff_isSome.mp hne
            have hsx := hext (freshA h2) hs
            rw [lookupH_freshA h2] at hsx
            rw [← hsx] at hs
            simp at hs
          refine ⟨HExt_trans hext (HExt_alloc h2 _), freshA h2 :: S2,
            List.mem_cons_self _ _, ?_, ?_, ?_⟩
          · intro x hx
            rcases List.mem_cons.mp hx with rfl | hx2
            · exact hfrfresh
            · exact hfresh x hx2
          · intro x hx
            rcases List.mem_cons.mp hx with rfl | hx2
            · simp [lookupH]
            · have h2some := hsome x hx2
              rw [lookupH_alloc h2 _ x h2some]
              exact h2some
          · intro x hx fs0 hl0 p hp
            rcases List.mem_cons.mp hx with rfl | hx2
            · have hfs : HObj.dict fs2 = HObj.dict fs0 := by
                simpa [lookupH] using hl0
              obtain rfl : fs2 = fs0 := by injection hfs
              exact List.mem_cons_of_mem _ (hfs2 p hp)
            · have h2some := hsome x hx2
              rw [lookupH_alloc h2 _ x h2some] at hl0
              exact List.mem_cons_of_mem _ (hclosed x hx2 fs0 hl0 p hp)

theorem runMods_frame (h0 : Heap) :
    ∀ (mods : List ModFun) (h : Heap) (r : Nat),
    (∀ f ∈ mods, Frame1 f ∧ Frame2 f) →
    (∀ a, (lookupH h0 a).isSome → lookupH h a = lookupH h0 a) →
    (∀ a, Reaches h r a → lookupH h0 a = none) →
    (∀ a, (lookupH h0 a).isSome →
      lookupH (runMods mods h r).1 a = lookupH h0 a) ∧
    (∀ a, Reaches (runMods mods h r).1 (runMods mods h r).2 a →
      lookupH h0 a = none) := by
  intro mods
  induction mods with
  | nil => intro h r _ hA hB; exact ⟨hA, hB⟩
  | cons f fs ih =>
    intro h r hfr hA hB
    have hf := hfr f (List.mem_cons_self _ _)
    have hfs : ∀ g ∈ fs, Frame1 g ∧ Frame2 g :=
      fun g hg => hfr g (List.mem_cons_of_mem _ hg)
    have hA2 : ∀ a, (lookupH h0 a).isSome →
        lookupH (f h r).1 a = lookupH h0 a := by
      intro a ha
      have hnr : ¬ Reaches h r a := by
        intro hr2
        have h1 := hB a hr2
        rw [h1] at ha
        simp at ha
      rw [hf.1 h r a hnr, hA a ha]
    have hB2 : ∀ a, Reaches (f h r).1 (f h r).2 a → lookupH h0 a = none := by
      intro a hr2
      rcases hf.2 h r a hr2 with hr3 | hn
      · exact hB a hr3
      · cases hc : lookupH h0 a with
        | none => rfl
        | some o =>
          exfalso
          have := hA a (by simp [hc])
          rw [hn, hc] at this
          cases this
    exact ih (f h r).1 (f h r).2 hfs hA2 hB2

/-- Claim C9 (confirmed): for every call to `emit`, the caller's payload
object graph — everything reachable from the payload root in a
well-formed heap — is unchanged when `emit` returns or raises.  `emit`
deep-copies the payload before the modifier chain (line 255); modifiers
and the in-place validate/redact step receive only the copy, and under
the frame property every Python callable satisfies (it can mutate only
objects reachable from its argument, and allocate fresh ones) no mutation
reaches the caller's original objects. -/
theorem C9_deepcopy_isolation (handlersOk registered : Bool)
    (mods : List ModFun) (valf : ValFun) (fuel : Nat) (h : Heap)
    (dataAddr : Nat)
    (hfr : ∀ f ∈ mods, Frame1 f ∧ Frame2 f) (hval : FrameV valf)
    (hcl : closedB h = true) (hd : (lookupH h dataAddr).isSome)
    (hfin : Heap) (res : Option Nat)
    (he : emitHeap handlersOk registered mods valf fuel h dataAddr
      = some (hfin, res)) :
    ∀ a, Reaches h dataAddr a → lookupH hfin a = lookupH h a := by
  cases handlersOk with
  | false =>
    have he2 : h = hfin ∧ none = res := by simpa [emitHeap] using he
    obtain ⟨rfl, -⟩ := he2
    intro a _; rfl
  | true =>
    cases registered with
    | false =>
      have he2 : h = hfin ∧ none = res := by simpa [emitHeap] using he
      obtain ⟨rfl, -⟩ := he2
      intro a _; rfl
    | true =>
      cases hdc : deepcopyF fuel h dataAddr with
      | none => simp [emitHeap, hdc] at he
      | some p =>
        obtain ⟨h1, c⟩ := p
        obtain ⟨hext, S, hcS, hfresh, hsome, hclosed⟩ :=
          deepcopyF_spec fuel h dataAddr h1 c hdc
        have hB1 : ∀ a, Reaches h1 c a → lookupH h a = none := by
          intro a hr
          exact hfresh a (reach_in_S hclosed hr hcS)
        obtain ⟨hA2, hB2⟩ := runMods_frame h mods h1 c hfr hext hB1
        have hA3 : ∀ a, (lookupH h a).isSome →
            lookupH (valf (runMods mods h1 c).1 (runMods mods h1 c).2).1 a
              = lookupH h a := by
          intro a ha
          have hnr : ¬ Reaches (runMods mods h1 c).1 (runMods mods h1 c).2 a := by
            intro hr2
            have h1e := hB2 a hr2
            rw [h1e] at ha
            simp at ha
          rw [hval (runMods mods h1 c).1 (runMods mods h1 c).2 a hnr, hA2 a ha]
        have hfin_eq :
            (valf (runMods mods h1 c).1 (runMods mods h1 c).2).1 = hfin := by
          by_cases hbv : (valf (runMods mods h1 c).1 (runMods mods h1 c).2).2
            <;> simp [emitHeap, hdc, hbv] at he <;> exact he.1
        intro a hra
        have ha := closed_reach_isSome hcl hra hd
        rw [← hfin_eq]
        exact hA3 a ha

/-- Witness for C9 at a concrete instance: payload dict `{"x": 5}` at
address 0 (its prim at address 1), one identity modifier, an accepting
validator — after `emitHeap` both of the caller's addresses hold exactly
what they held before. -/
theorem C9_deepcopy_isolation_witness :
    lookupH exHeapFinal 1 = lookupH exHeap 1
    ∧ lookupH exHeapFinal 0 = lookupH exHeap 0 := by
  have hfr : ∀ f ∈ [idMod], Frame1 f ∧ Frame2 f := by
    intro f hf
    rw [List.mem_singleton.mp hf]
    exact ⟨fun h r a _ => rfl, fun h r a hr => Or.inl hr⟩
  have he : emitHeap true true [idMod] okVal 3 exHeap 0
      = some (exHeapFinal, some 3) := by
    simp [emitHeap, deepcopyF, copyFields, exHeap, exHeapFinal, lookupH,
      freshA, maxKeyH, runMods, idMod, okVal]
  have h := C9_deepcopy_isolation true true [idMod] okVal 3 exHeap 0
    hfr (fun h r a _ => rfl) rfl rfl exHeapFinal (some 3) he
  exact ⟨h 1 (@Reaches.step exHeap 0 1 1 [("x", 1)] "x" rfl
      (List.mem_singleton.mpr rfl) (Reaches.refl 1)),
    h 0 (Reaches.refl 0)⟩

end JEHeap
